import Mathlib

/-!
# Verification of the `ruspiro-mmu` translation-table code

A shallow embedding of the MMU translation-table algorithms of the
`ruspiro-mmu` crate, together with proofs about them.

Embedded components (all addresses and 64-bit machine words are modelled as
`Nat`, with wrapping arithmetic made explicit as `% 2^64` where the Rust code
computes on `u64`/`usize`):

* the translation-table entry codec described by `src/config.rs`
  (`TTLB_TABLE`, `TTLB_BLOCKPAGE` field declarations), with the generic
  offset/width field semantics of the external register DSL;
* `src/ttbr0.rs::setup_translation_tables` — the boot-time identity map;
* `src/ttbr1.rs::setup_translation_tables` / `maintain_pages` and
  `src/lib.rs::map_memory` — the dynamic virtual allocator;
* `src/mmu64.rs::maintain_pages` — the block → page splitter.

Table memory is modelled as `List Nat` (index-based arena, one element per
64-bit table entry); volatile writes become `List.set`; barrier and cache
maintenance instructions have no effect on table contents and are dropped;
the Rust panic path becomes an `Option.none` result.
-/

namespace RuspiroMMU

/-! ## Generic bit-level helpers -/

/-- Or-ing a value below `2^k` into a multiple of `2^k` is addition. -/
theorem or_shift_add (acc f k : Nat) (h : acc < 2 ^ k) :
    acc ||| (f <<< k) = acc + f * 2 ^ k := by
  rw [Nat.shiftLeft_eq, Nat.or_comm, Nat.mul_comm f (2 ^ k),
    ← Nat.mul_add_lt_is_or h f, Nat.add_comm]

/-- Or-ing two numbers whose set bits live in disjoint power-of-two ranges is
addition: `y` is a multiple of `2^k` and `x` lies below `2^k`. -/
theorem or_eq_add_of_lt (x y k : Nat) (hx : x < 2 ^ k) (hy : y % 2 ^ k = 0) :
    y ||| x = y + x := by
  have hmul : y = 2 ^ k * (y / 2 ^ k) := by
    rw [Nat.mul_comm, Nat.div_mul_cancel (Nat.dvd_of_mod_eq_zero hy)]
  rw [hmul, ← Nat.mul_add_lt_is_or hx (y / 2 ^ k)]

/-- Shifting right distributes over bitwise or. -/
theorem shiftRight_or_distrib (a b k : Nat) :
    (a ||| b) >>> k = (a >>> k) ||| (b >>> k) := by
  apply Nat.eq_of_testBit_eq
  intro i
  simp [Nat.testBit_or, Nat.testBit_shiftRight]

/-- Masking with a shifted mask reads the field at the shift position. -/
theorem and_shiftLeft_mask (x m k : Nat) :
    x &&& (m <<< k) = ((x >>> k) &&& m) <<< k := by
  apply Nat.eq_of_testBit_eq
  intro i
  simp only [Nat.testBit_and, Nat.testBit_shiftLeft, Nat.testBit_shiftRight]
  by_cases h : k ≤ i
  · simp [h, Nat.add_sub_cancel' h]
  · simp [h, Bool.and_comm]

/-! ## Entry codec

`src/config.rs` declares the two 64-bit entry layouts through the
`define_tlb_entry!` macro: a list of named fields, each with an offset, a
width (1 bit when no `BITS` clause is given) and optional enumerated values.

Modelled from the spec: the bit-field register DSL itself lives in the
external `ruspiro-arch-aarch64` crate; per the spec it "turns a table of
named offset/width/enumerated-value declarations into typed read/write
accessors".  Reading a field extracts `width` bits at `offset`; an
enumerated value `v` of a field contributes `v <<< offset` to the raw word.
The offsets and widths below are exactly those of `src/config.rs`. -/

/-- Modelled from the spec: generic field read accessor of the external
bit-field DSL — extract `bits` bits of `raw` starting at `offset`. -/
def field_read (raw offset bits : Nat) : Nat :=
  (raw >>> offset) &&& ((1 <<< bits) - 1)

theorem field_read_eq_div_mod (raw offset bits : Nat) :
    field_read raw offset bits = raw / 2 ^ offset % 2 ^ bits := by
  unfold field_read
  rw [Nat.shiftRight_eq_div_pow, Nat.one_shiftLeft,
    Nat.and_pow_two_sub_one_eq_mod]

namespace TTLB_TABLE

/-- Field `TTLB_TABLE.TYPE` field: `OFFSET(0) BITS(2)`, `VALID = 0b11`. -/
def TYPE (e : Nat) : Nat := field_read e 0 2

/-- Value `TYPE::VALID = 0b11`. -/
def TYPE_VALID : Nat := 0b11

/-- Field `TTLB_TABLE.ADDR` field: `OFFSET(12) BITS(36)`. -/
def ADDR (e : Nat) : Nat := field_read e 12 36

/-- Field `TTLB_TABLE.PXN` field: `OFFSET(59)`. -/
def PXN (e : Nat) : Nat := field_read e 59 1

/-- Field `TTLB_TABLE.XN` field: `OFFSET(60)`. -/
def XN (e : Nat) : Nat := field_read e 60 1

/-- Field `TTLB_TABLE.AP` field: `OFFSET(61) BITS(2)`. -/
def AP (e : Nat) : Nat := field_read e 61 2

/-- Field `TTLB_TABLE.NS` field: `OFFSET(63)`, `SET = 0b1`. -/
def NS (e : Nat) : Nat := field_read e 63 1

/-- Field `TTLB_TABLE.NS::SET` as a raw value: bit 63. -/
def NS_SET : Nat := 1 <<< 63

/-- Encoding a table entry from its named fields (or of the shifted fields,
as the DSL combines `RegisterFieldValue`s with `|`). -/
def encode (t addr pxn xn ap ns : Nat) : Nat :=
  t ||| (addr <<< 12) ||| (pxn <<< 59) ||| (xn <<< 60) ||| (ap <<< 61) |||
    (ns <<< 63)

end TTLB_TABLE

namespace TTLB_BLOCKPAGE

/-- Field `TTLB_BLOCKPAGE.TYPE` field: `OFFSET(0) BITS(2)`,
`BLOCK = 0b01`, `PAGE = 0b11`, `INVALID = 0b00`. -/
def TYPE (e : Nat) : Nat := field_read e 0 2

/-- Value `TYPE::BLOCK = 0b01` — the valid block descriptor tag.  (`ttbr0.rs`
spells this `BLOCK::TYPE::VALID`; the `TTLB_BLOCKPAGE` table of
`src/config.rs` declares the valid non-leaf block encoding as `BLOCK = 0b01`.) -/
def TYPE_BLOCK : Nat := 0b01

/-- Value `TYPE::PAGE = 0b11`. -/
def TYPE_PAGE : Nat := 0b11

/-- Field `TTLB_BLOCKPAGE.MEMATTR` field: `OFFSET(2) BITS(3)`, `MAIRn = n`. -/
def MEMATTR (e : Nat) : Nat := field_read e 2 3

/-- Value `MEMATTR::MAIR0 = 0` as a raw value. -/
def MEMATTR_MAIR0 : Nat := 0 <<< 2

/-- Value `MEMATTR::MAIR3 = 3` as a raw value. -/
def MEMATTR_MAIR3 : Nat := 3 <<< 2

/-- Value `MEMATTR::MAIR4 = 4` as a raw value. -/
def MEMATTR_MAIR4 : Nat := 4 <<< 2

/-- Field `TTLB_BLOCKPAGE.NS` field: `OFFSET(5)`, `SET = 0b1`. -/
def NS (e : Nat) : Nat := field_read e 5 1

/-- Value `NS::SET` as a raw value: bit 5. -/
def NS_SET : Nat := 1 <<< 5

/-- Field `TTLB_BLOCKPAGE.AP` field: `OFFSET(6) BITS(2)`. -/
def AP (e : Nat) : Nat := field_read e 6 2

/-- Field `TTLB_BLOCKPAGE.SH` field: `OFFSET(8) BITS(2)`, `INNER = 0b11`. -/
def SH (e : Nat) : Nat := field_read e 8 2

/-- Value `SH::INNER = 0b11` as a raw value. -/
def SH_INNER : Nat := 0b11 <<< 8

/-- Field `TTLB_BLOCKPAGE.AF` field: `OFFSET(10)`, `SET = 0b1`. -/
def AF (e : Nat) : Nat := field_read e 10 1

/-- Value `AF::SET` as a raw value: bit 10. -/
def AF_SET : Nat := 1 <<< 10

/-- Field `TTLB_BLOCKPAGE.NG` field: `OFFSET(11)`. -/
def NG (e : Nat) : Nat := field_read e 11 1

/-- Field `TTLB_BLOCKPAGE.ADDR` field: `OFFSET(12) BITS(36)` — output address
bits 47:12 (47:30 used for a block, 47:12 for a page). -/
def ADDR (e : Nat) : Nat := field_read e 12 36

/-- Field `TTLB_BLOCKPAGE.C` field: `OFFSET(52)`. -/
def C (e : Nat) : Nat := field_read e 52 1

/-- Field `TTLB_BLOCKPAGE.PXN` field: `OFFSET(53)`. -/
def PXN (e : Nat) : Nat := field_read e 53 1

/-- Field `TTLB_BLOCKPAGE.XN` field: `OFFSET(54)`. -/
def XN (e : Nat) : Nat := field_read e 54 1

/-- Encoding a block/page entry from its named fields. -/
def encode (t memattr ns ap sh af ng addr c pxn xn : Nat) : Nat :=
  t ||| (memattr <<< 2) ||| (ns <<< 5) ||| (ap <<< 6) ||| (sh <<< 8) |||
    (af <<< 10) ||| (ng <<< 11) ||| (addr <<< 12) ||| (c <<< 52) |||
    (pxn <<< 53) ||| (xn <<< 54)

end TTLB_BLOCKPAGE

/-! ## Table storage helpers -/

/-- Write entries `lo`, `lo+1`, …, `lo+cnt-1` of `l`, entry `i` receiving
`f i` — the shape of the `for i in lo..hi` / `write_volatile` loops. -/
def setRange (l : List Nat) (lo cnt : Nat) (f : Nat → Nat) : List Nat :=
  match cnt with
  | 0 => l
  | c + 1 => setRange (l.set lo (f lo)) (lo + 1) c f

theorem setRange_length (l : List Nat) (lo cnt : Nat) (f : Nat → Nat) :
    (setRange l lo cnt f).length = l.length := by
  induction cnt generalizing l lo with
  | zero => rfl
  | succ c ih => rw [setRange, ih, List.length_set]

theorem setRange_getElem? (l : List Nat) (lo cnt : Nat) (f : Nat → Nat)
    (j : Nat) :
    (setRange l lo cnt f)[j]? =
      if lo ≤ j ∧ j < lo + cnt ∧ j < l.length then some (f j) else l[j]? := by
  induction cnt generalizing l lo with
  | zero =>
    simp only [setRange]
    rw [if_neg (by omega)]
  | succ c ih =>
    rw [setRange, ih, List.length_set]
    by_cases hj : j = lo
    · rw [if_neg (by omega), hj]
      by_cases hlen : lo < l.length
      · rw [List.getElem?_set_self hlen, if_pos (by omega)]
      · rw [if_neg (by omega),
          List.getElem?_eq_none (by rw [List.length_set]; omega),
          List.getElem?_eq_none (by omega)]
    · rw [List.getElem?_set_ne (by omega)]
      by_cases h : lo + 1 ≤ j ∧ j < lo + 1 + c ∧ j < l.length
      · rw [if_pos h, if_pos (by omega)]
      · rw [if_neg h, if_neg (by omega)]

/-! ## `src/ttbr0.rs` — the boot-time identity map

`MmuConfig` (from `src/lib.rs`): a level-1 array of 512 entries (1 GB each)
and a level-2 array of 1024 entries (2 MB each), statically zero-initialized.
-/

/-- The `MmuConfig` table set: `ttlb_lvl1: [u64; 512]`, `ttlb_lvl2: [u64; 1024]`. -/
structure MmuConfig where
  ttlb_lvl1 : List Nat
  ttlb_lvl2 : List Nat
  deriving DecidableEq

/-- The zero-initialized static `MMU_CFG` of `src/ttbr0.rs`. -/
def ttbr0_MMU_CFG : MmuConfig :=
  { ttlb_lvl1 := List.replicate 512 0, ttlb_lvl2 := List.replicate 1024 0 }

/-- The normal-memory block entry written by the first `ttbr0.rs` loop:
`BLOCK::NS::SET | BLOCK::AF::SET | BLOCK::SH::INNER | BLOCK::MEMATTR::MAIR4 |
BLOCK::TYPE::VALID` or-ed with `(i as u64) << 21`. -/
def ttbr0_normal_entry (i : Nat) : Nat :=
  (TTLB_BLOCKPAGE.NS_SET ||| TTLB_BLOCKPAGE.AF_SET |||
    TTLB_BLOCKPAGE.SH_INNER ||| TTLB_BLOCKPAGE.MEMATTR_MAIR4 |||
    TTLB_BLOCKPAGE.TYPE_BLOCK) ||| (i <<< 21)

/-- The VideoCore carve-out block entry written by the second loop:
`BLOCK::AF::SET | BLOCK::SH::INNER | BLOCK::MEMATTR::MAIR3 |
BLOCK::TYPE::VALID` or-ed with `(i as u64) << 21`. -/
def ttbr0_vc_entry (i : Nat) : Nat :=
  (TTLB_BLOCKPAGE.AF_SET ||| TTLB_BLOCKPAGE.SH_INNER |||
    TTLB_BLOCKPAGE.MEMATTR_MAIR3 ||| TTLB_BLOCKPAGE.TYPE_BLOCK) |||
    (i <<< 21)

/-- The device-memory block entry written by the third loop:
`BLOCK::AF::SET | BLOCK::SH::INNER | BLOCK::MEMATTR::MAIR0 |
BLOCK::TYPE::VALID` or-ed with `(i as u64) << 21`. -/
def ttbr0_device_entry (i : Nat) : Nat :=
  (TTLB_BLOCKPAGE.AF_SET ||| TTLB_BLOCKPAGE.SH_INNER |||
    TTLB_BLOCKPAGE.MEMATTR_MAIR0 ||| TTLB_BLOCKPAGE.TYPE_BLOCK) |||
    (i <<< 21)

/-- Function `src/ttbr0.rs::setup_translation_tables`.  `vc_mem_start` and
`vc_mem_size` are `u32` values (the sum wraps at `2^32`); `level2_addr_1`
and `level2_addr_2` are the runtime addresses of `ttlb_lvl2[0]` and
`ttlb_lvl2[512]`.  Barriers are dropped; only core 0 builds the table. -/
def ttbr0_setup_translation_tables (core vc_mem_start vc_mem_size : Nat)
    (level2_addr_1 level2_addr_2 : Nat) (cfg : MmuConfig) : MmuConfig :=
  if core = 0 then
    let lvl1 := (cfg.ttlb_lvl1.set 0
      ((TTLB_TABLE.NS_SET ||| TTLB_TABLE.TYPE_VALID) ||| level2_addr_1)).set 1
      ((TTLB_TABLE.NS_SET ||| TTLB_TABLE.TYPE_VALID) ||| level2_addr_2)
    let l2a := setRange cfg.ttlb_lvl2 0 4 ttbr0_normal_entry
    let vc_start_block := vc_mem_start >>> 21
    let vc_end_block := ((vc_mem_start + vc_mem_size) % 2 ^ 32) >>> 21
    let l2b := setRange l2a vc_start_block (vc_end_block - vc_start_block)
      ttbr0_vc_entry
    let l2c := setRange l2b 504 (513 - 504) ttbr0_device_entry
    { ttlb_lvl1 := lvl1, ttlb_lvl2 := l2c }
  else cfg

/-! ## `src/ttbr1.rs` — the dynamic virtual allocator -/

/-- The zero-initialized static `MMU_CFG` of `src/ttbr1.rs` (the virtual
table set; same `MmuConfig` shape, a distinct static). -/
def ttbr1_MMU_CFG : MmuConfig :=
  { ttlb_lvl1 := List.replicate 512 0, ttlb_lvl2 := List.replicate 1024 0 }

/-- Function `src/ttbr1.rs::setup_translation_tables`: on core 0, write the single
level-1 entry 511 pointing at `ttlb_lvl2[0]` (address `level2_addr`). -/
def ttbr1_setup_translation_tables (core level2_addr : Nat)
    (cfg : MmuConfig) : MmuConfig :=
  if core = 0 then
    let entry := (TTLB_TABLE.NS_SET ||| TTLB_TABLE.TYPE_VALID) ||| level2_addr
    { cfg with ttlb_lvl1 := cfg.ttlb_lvl1.set 511 entry }
  else cfg

/-- Model of `ttlb_lvl2.iter_mut().enumerate().find(|(_, entry)| **entry == 0)` —
index of the first entry whose value is exactly zero. -/
def findFreeIdx : List Nat → Option Nat
  | [] => none
  | e :: rest => if e = 0 then some 0 else (findFreeIdx rest).map (· + 1)

/-- 64-bit wrapping subtraction (`usize`/`u64` arithmetic in release mode),
for `a < 2^64`. -/
def wsub64 (a b : Nat) : Nat := (2 ^ 64 + a - b % 2 ^ 64) % 2 ^ 64

/-- The virtual address computed for slot `idx`:
`0xFFFF_FFFF_FFFF_FFFF - (((512 - idx) << 21) - 1)` in wrapping `usize`
arithmetic. -/
def vaBase (idx : Nat) : Nat :=
  wsub64 0xFFFFFFFFFFFFFFFF (wsub64 ((wsub64 512 idx <<< 21) % 2 ^ 64) 1)

/-- The block entry value written by `maintain_pages`:
`0b1 << 63 | attributes | ((origin as u64) & !0x1F_FFFF) | 1 << 10 | 0b01`. -/
def tlbValue (origin attributes : Nat) : Nat :=
  (0b1 <<< 63) ||| attributes ||| (origin &&& 0xFFFFFFFFFFE00000) |||
    (1 <<< 10) ||| 0b01

/-- Function `src/ttbr1.rs::maintain_pages`: find the first free level-2 slot, write
a block entry for `origin` there and return the virtual address; `size` is
unused (`_size` in the source); the panic on exhaustion becomes `none`.
Barrier/cache-maintenance instructions are dropped. -/
def maintain_pages (cfg : MmuConfig) (origin _size attributes : Nat) :
    Option (MmuConfig × Nat) :=
  match findFreeIdx cfg.ttlb_lvl2 with
  | some idx =>
    let va := vaBase idx ||| (origin &&& 0x1FFFFF)
    let lvl2 := cfg.ttlb_lvl2.set idx (tlbValue origin attributes)
    some ({ cfg with ttlb_lvl2 := lvl2 }, va)
  | none => none

/-- Function `src/lib.rs::map_memory`: at exception level 1 delegate to
`ttbr1::maintain_pages`, otherwise return `origin` unchanged. -/
def map_memory (el : Nat) (cfg : MmuConfig) (origin size attributes : Nat) :
    Option (MmuConfig × Nat) :=
  if el = 1 then maintain_pages cfg origin size attributes
  else some (cfg, origin)

/-! ## `src/mmu64.rs` — the block → page splitter -/

/-- The `MmuConfig` of `src/mmu64.rs`: `ttlb_lvl0: [u64; 512]`,
`ttlb_lvl2: [u64; 1024]` (page-level pool), `ttlb_lvl1: [u64; 513]`
(2 MB block entries). -/
structure Mmu64Config where
  ttlb_lvl0 : List Nat
  ttlb_lvl2 : List Nat
  ttlb_lvl1 : List Nat
  deriving DecidableEq

/-- The zero-initialized static `MMU_CFG` of `src/mmu64.rs`. -/
def mmu64_MMU_CFG : Mmu64Config :=
  { ttlb_lvl0 := List.replicate 512 0
    ttlb_lvl2 := List.replicate 1024 0
    ttlb_lvl1 := List.replicate 513 0 }

/-- Function `src/mmu64.rs::maintain_pages`: split the 2 MB block(s) covering pages
`page_from..page_from+page_count` into page entries, preserving the original
block attributes (`& 0xFFF0000000000FFC`) outside the requested range.
`_addr` is only logged in the source; `level2_page_addr_1`/`_2` are the
runtime addresses of `ttlb_lvl2[0]` and `ttlb_lvl2[512]`; the console
logging, barriers and TLB invalidation are dropped. -/
def mmu64_maintain_pages (cfg : Mmu64Config)
    (_addr page_from page_count page_attributes : Nat)
    (level2_page_addr_1 level2_page_addr_2 : Nat) : Mmu64Config :=
  let block_idx_1 := page_from / 512
  let block_idx_2 := (page_from + page_count) / 512
  let block_attributes := cfg.ttlb_lvl1.getD block_idx_1 0 &&& 0xFFF0000000000FFC
  let block_page_start := page_from - block_idx_1 * 512
  let l2a := setRange cfg.ttlb_lvl2 0 block_page_start
    (fun i => block_attributes ||| (i * 0x1000 + block_idx_1 * 0x200000) ||| 0b11)
  let l2b := setRange l2a block_page_start page_count
    (fun i => page_attributes ||| (i * 0x1000 + block_idx_1 * 0x200000) ||| 0b11)
  let block_page_end := (block_idx_2 + 1) * 512
  let l2c := setRange l2b (block_page_start + page_count)
    (block_page_end - (block_page_start + page_count))
    (fun i => block_attributes ||| (i * 0x1000 + block_idx_1 * 0x200000) ||| 0b11)
  let lvl1a := cfg.ttlb_lvl1.set block_idx_1
    ((0x0 <<< 63) ||| level2_page_addr_1 ||| 0b11)
  let lvl1b := if block_idx_1 ≠ block_idx_2 then
    lvl1a.set block_idx_2 ((0x1 <<< 63) ||| level2_page_addr_2 ||| 0b11)
  else lvl1a
  { ttlb_lvl0 := cfg.ttlb_lvl0, ttlb_lvl2 := l2c, ttlb_lvl1 := lvl1b }

/-! ## Arithmetic forms of the decoders -/

theorem TTLB_BLOCKPAGE.TYPE_eq (e : Nat) : TTLB_BLOCKPAGE.TYPE e = e % 4 := by
  rw [TTLB_BLOCKPAGE.TYPE, field_read_eq_div_mod]; norm_num

theorem TTLB_BLOCKPAGE.MEMATTR_eq (e : Nat) :
    TTLB_BLOCKPAGE.MEMATTR e = e / 4 % 8 := by
  rw [TTLB_BLOCKPAGE.MEMATTR, field_read_eq_div_mod]; norm_num

theorem TTLB_BLOCKPAGE.NS_eq (e : Nat) : TTLB_BLOCKPAGE.NS e = e / 32 % 2 := by
  rw [TTLB_BLOCKPAGE.NS, field_read_eq_div_mod]; norm_num

theorem TTLB_BLOCKPAGE.AP_eq (e : Nat) : TTLB_BLOCKPAGE.AP e = e / 64 % 4 := by
  rw [TTLB_BLOCKPAGE.AP, field_read_eq_div_mod]; norm_num

theorem TTLB_BLOCKPAGE.SH_eq (e : Nat) : TTLB_BLOCKPAGE.SH e = e / 256 % 4 := by
  rw [TTLB_BLOCKPAGE.SH, field_read_eq_div_mod]; norm_num

theorem TTLB_BLOCKPAGE.AF_eq (e : Nat) : TTLB_BLOCKPAGE.AF e = e / 1024 % 2 := by
  rw [TTLB_BLOCKPAGE.AF, field_read_eq_div_mod]; norm_num

theorem TTLB_BLOCKPAGE.NG_eq (e : Nat) : TTLB_BLOCKPAGE.NG e = e / 2048 % 2 := by
  rw [TTLB_BLOCKPAGE.NG, field_read_eq_div_mod]; norm_num

theorem TTLB_BLOCKPAGE.ADDR_eq (e : Nat) :
    TTLB_BLOCKPAGE.ADDR e = e / 4096 % 2 ^ 36 := by
  rw [TTLB_BLOCKPAGE.ADDR, field_read_eq_div_mod]; norm_num

theorem TTLB_BLOCKPAGE.C_eq (e : Nat) : TTLB_BLOCKPAGE.C e = e / 2 ^ 52 % 2 := by
  rw [TTLB_BLOCKPAGE.C, field_read_eq_div_mod]; norm_num

theorem TTLB_BLOCKPAGE.PXN_eq (e : Nat) :
    TTLB_BLOCKPAGE.PXN e = e / 2 ^ 53 % 2 := by
  rw [TTLB_BLOCKPAGE.PXN, field_read_eq_div_mod]; norm_num

theorem TTLB_BLOCKPAGE.XN_eq (e : Nat) :
    TTLB_BLOCKPAGE.XN e = e / 2 ^ 54 % 2 := by
  rw [TTLB_BLOCKPAGE.XN, field_read_eq_div_mod]; norm_num

theorem table_TYPE_eq (e : Nat) : TTLB_TABLE.TYPE e = e % 4 := by
  rw [TTLB_TABLE.TYPE, field_read_eq_div_mod]; norm_num

theorem table_ADDR_eq (e : Nat) :
    TTLB_TABLE.ADDR e = e / 4096 % 2 ^ 36 := by
  rw [TTLB_TABLE.ADDR, field_read_eq_div_mod]; norm_num

theorem table_PXN_eq (e : Nat) : TTLB_TABLE.PXN e = e / 2 ^ 59 % 2 := by
  rw [TTLB_TABLE.PXN, field_read_eq_div_mod]; norm_num

theorem table_XN_eq (e : Nat) : TTLB_TABLE.XN e = e / 2 ^ 60 % 2 := by
  rw [TTLB_TABLE.XN, field_read_eq_div_mod]; norm_num

theorem table_AP_eq (e : Nat) : TTLB_TABLE.AP e = e / 2 ^ 61 % 4 := by
  rw [TTLB_TABLE.AP, field_read_eq_div_mod]; norm_num

theorem table_NS_eq (e : Nat) : TTLB_TABLE.NS e = e / 2 ^ 63 % 2 := by
  rw [TTLB_TABLE.NS, field_read_eq_div_mod]; norm_num

/-! ## Properties of `findFreeIdx` -/

theorem findFreeIdx_spec (l : List Nat) (i : Nat)
    (h : findFreeIdx l = some i) :
    l[i]? = some 0 ∧ ∀ j, j < i → l[j]? ≠ some 0 := by
  induction l generalizing i with
  | nil => simp [findFreeIdx] at h
  | cons e rest ih =>
    rw [findFreeIdx] at h
    by_cases he : e = 0
    · rw [if_pos he] at h
      cases h
      subst he
      exact ⟨by simp, by omega⟩
    · rw [if_neg he] at h
      rcases Option.map_eq_some'.mp h with ⟨i', hi', rfl⟩
      rcases ih i' hi' with ⟨h0, hmin⟩
      refine ⟨by simpa using h0, ?_⟩
      intro j hj
      match j with
      | 0 => simpa using he
      | j' + 1 => simpa using hmin j' (by omega)

theorem findFreeIdx_eq_none (l : List Nat) (h : ∀ e ∈ l, e ≠ 0) :
    findFreeIdx l = none := by
  induction l with
  | nil => rfl
  | cons e rest ih =>
    rw [findFreeIdx, if_neg (h e (by simp)), ih (fun x hx => h x (by simp [hx]))]
    rfl

theorem findFreeIdx_lt_length (l : List Nat) (i : Nat)
    (h : findFreeIdx l = some i) : i < l.length := by
  have h0 := (findFreeIdx_spec l i h).1
  by_contra hge
  rw [List.getElem?_eq_none (by omega)] at h0
  cases h0

/-! ## Properties of `vaBase` -/

theorem vaBase_of_lt (idx : Nat) (h : idx < 512) :
    vaBase idx = 2 ^ 64 - (512 - idx) * 2 ^ 21 := by
  unfold vaBase wsub64
  rw [Nat.shiftLeft_eq]
  omega

theorem vaBase_mod_two_pow_21 (idx : Nat) : vaBase idx % 2 ^ 21 = 0 := by
  unfold vaBase wsub64
  rw [Nat.shiftLeft_eq]
  omega

/-! ## Closed forms of the identity-map block entries -/

theorem ttbr0_normal_entry_eq (i : Nat) :
    ttbr0_normal_entry i = i * 2 ^ 21 + 0x731 := by
  rw [show ttbr0_normal_entry i = 0x731 ||| (i <<< 21) from rfl,
    or_shift_add 0x731 i 21 (by norm_num)]
  omega

theorem ttbr0_vc_entry_eq (i : Nat) :
    ttbr0_vc_entry i = i * 2 ^ 21 + 0x70D := by
  rw [show ttbr0_vc_entry i = 0x70D ||| (i <<< 21) from rfl,
    or_shift_add 0x70D i 21 (by norm_num)]
  omega

theorem ttbr0_device_entry_eq (i : Nat) :
    ttbr0_device_entry i = i * 2 ^ 21 + 0x701 := by
  rw [show ttbr0_device_entry i = 0x701 ||| (i <<< 21) from rfl,
    or_shift_add 0x701 i 21 (by norm_num)]
  omega

/-- The final level-2 entry of the identity map at an index inside the
VideoCore carve-out and below the fixed device range. -/
theorem ttbr0_lvl2_at_vc_index (vc_mem_start vc_mem_size i a1 a2 : Nat)
    (hlo : vc_mem_start >>> 21 ≤ i)
    (hhi : i < ((vc_mem_start + vc_mem_size) % 2 ^ 32) >>> 21)
    (hdev : i < 504) :
    (ttbr0_setup_translation_tables 0 vc_mem_start vc_mem_size a1 a2
      ttbr0_MMU_CFG).ttlb_lvl2.getD i 0 = ttbr0_vc_entry i := by
  simp only [ttbr0_setup_translation_tables, ttbr0_MMU_CFG, if_true]
  rw [List.getD_eq_getElem?_getD, setRange_getElem?,
    if_neg (by omega), setRange_getElem?]
  rw [if_pos ?_]
  · rfl
  · refine ⟨hlo, by omega, ?_⟩
    rw [setRange_length, List.length_replicate]
    omega

/-! ## Claim theorems: the identity map (C1, C3) -/

/-- C1: the claim states that after `setup_translation_tables(0, start, size)`
every level-2 entry with index in `[0, start / 0x20_0000)` decodes to a
normal-memory block, with no gap.  The code only writes the four entries
`0..4` as normal memory: with the standard device region start `0x3F00_0000`
(block index 504) entry 4 is left at its zero initialization — an `Invalid`
entry, not a normal-memory block — contradicting the crate documentation of
a 1:1 mapping across the whole available memory. -/
theorem ttbr0_identity_map_gap_at_block_four :
    (ttbr0_setup_translation_tables 0 0x3F000000 0x200000 0x1000 0x2000
      ttbr0_MMU_CFG).ttlb_lvl2.getD 4 0 = 0 := by
  simp only [ttbr0_setup_translation_tables, ttbr0_MMU_CFG, if_true]
  rw [List.getD_eq_getElem?_getD, setRange_getElem?, if_neg (by decide),
    setRange_getElem?, if_neg ?_, setRange_getElem?, if_neg (by decide),
    List.getElem?_replicate_of_lt (by decide)]
  · rfl
  · intro hcontra
    have h1 : (0x3F000000 : Nat) >>> 21 ≤ 4 := hcontra.1
    revert h1
    decide

/-- C3 counterexample: for the standard VideoCore region
(`vc_mem_start = 0x3F00_0000`, `vc_mem_size = 0x20_0000`, i.e. block 504),
the third pass (fixed device range 504..513) runs after the carve-out pass
and overwrites entry 504 with the device profile: it decodes to MAIR index 0,
not the non-cacheable MAIR index 3 required by the claim. -/
theorem ttbr0_vc_block_504_overwritten :
    TTLB_BLOCKPAGE.MEMATTR ((ttbr0_setup_translation_tables 0 0x3F000000
        0x200000 0x1000 0x2000 ttbr0_MMU_CFG).ttlb_lvl2.getD 504 0) = 0 ∧
    TTLB_BLOCKPAGE.MEMATTR ((ttbr0_setup_translation_tables 0 0x3F000000
        0x200000 0x1000 0x2000 ttbr0_MMU_CFG).ttlb_lvl2.getD 504 0) ≠ 3 := by
  have h : (ttbr0_setup_translation_tables 0 0x3F000000 0x200000 0x1000 0x2000
      ttbr0_MMU_CFG).ttlb_lvl2.getD 504 0 = ttbr0_device_entry 504 := by
    simp only [ttbr0_setup_translation_tables, ttbr0_MMU_CFG, if_true]
    rw [List.getD_eq_getElem?_getD, setRange_getElem?, if_pos ?_]
    · rfl
    · refine ⟨by omega, by omega, ?_⟩
      rw [setRange_length, setRange_length, List.length_replicate]
      omega
  rw [h, ttbr0_device_entry_eq, TTLB_BLOCKPAGE.MEMATTR_eq]
  omega

/-- C3 (amended): after the identity-map construction with core 0 and a 2 MB
aligned device region, every level-2 entry whose index lies in the device
region **and below the fixed device range starting at block 504** (which the
third pass rewrites afterwards) decodes to a `Block` entry with the
non-cacheable profile (MAIR index 3), access flag set, inner-shareable, no
non-secure flag, and output address `i * 0x20_0000`. -/
theorem ttbr0_vc_region_noncacheable (vc_mem_start vc_mem_size i a1 a2 : Nat)
    (_halign1 : vc_mem_start % 0x200000 = 0)
    (_halign2 : vc_mem_size % 0x200000 = 0)
    (_h32a : vc_mem_start < 2 ^ 32) (_h32b : vc_mem_size < 2 ^ 32)
    (hlo : vc_mem_start >>> 21 ≤ i)
    (hhi : i < ((vc_mem_start + vc_mem_size) % 2 ^ 32) >>> 21)
    (hdev : i < 504) :
    TTLB_BLOCKPAGE.TYPE ((ttbr0_setup_translation_tables 0 vc_mem_start
        vc_mem_size a1 a2 ttbr0_MMU_CFG).ttlb_lvl2.getD i 0) =
      TTLB_BLOCKPAGE.TYPE_BLOCK ∧
    TTLB_BLOCKPAGE.MEMATTR ((ttbr0_setup_translation_tables 0 vc_mem_start
        vc_mem_size a1 a2 ttbr0_MMU_CFG).ttlb_lvl2.getD i 0) = 3 ∧
    TTLB_BLOCKPAGE.AF ((ttbr0_setup_translation_tables 0 vc_mem_start
        vc_mem_size a1 a2 ttbr0_MMU_CFG).ttlb_lvl2.getD i 0) = 1 ∧
    TTLB_BLOCKPAGE.SH ((ttbr0_setup_translation_tables 0 vc_mem_start
        vc_mem_size a1 a2 ttbr0_MMU_CFG).ttlb_lvl2.getD i 0) = 0b11 ∧
    TTLB_BLOCKPAGE.NS ((ttbr0_setup_translation_tables 0 vc_mem_start
        vc_mem_size a1 a2 ttbr0_MMU_CFG).ttlb_lvl2.getD i 0) = 0 ∧
    TTLB_BLOCKPAGE.ADDR ((ttbr0_setup_translation_tables 0 vc_mem_start
        vc_mem_size a1 a2 ttbr0_MMU_CFG).ttlb_lvl2.getD i 0) <<< 12 =
      i * 0x200000 := by
  rw [ttbr0_lvl2_at_vc_index vc_mem_start vc_mem_size i a1 a2 hlo hhi hdev,
    ttbr0_vc_entry_eq, TTLB_BLOCKPAGE.TYPE_eq, TTLB_BLOCKPAGE.MEMATTR_eq,
    TTLB_BLOCKPAGE.AF_eq, TTLB_BLOCKPAGE.SH_eq, TTLB_BLOCKPAGE.NS_eq,
    TTLB_BLOCKPAGE.ADDR_eq, Nat.shiftLeft_eq]
  simp only [TTLB_BLOCKPAGE.TYPE_BLOCK]
  omega

/-- C3 witness: the amended theorem applied to the concrete region
`vc_mem_start = 0x3EC0_0000`, `vc_mem_size = 0x20_0000` (block 502). -/
theorem ttbr0_vc_region_noncacheable_witness :
    TTLB_BLOCKPAGE.TYPE ((ttbr0_setup_translation_tables 0 0x3EC00000
        0x200000 0 0 ttbr0_MMU_CFG).ttlb_lvl2.getD 502 0) =
      TTLB_BLOCKPAGE.TYPE_BLOCK ∧
    TTLB_BLOCKPAGE.MEMATTR ((ttbr0_setup_translation_tables 0 0x3EC00000
        0x200000 0 0 ttbr0_MMU_CFG).ttlb_lvl2.getD 502 0) = 3 ∧
    TTLB_BLOCKPAGE.AF ((ttbr0_setup_translation_tables 0 0x3EC00000
        0x200000 0 0 ttbr0_MMU_CFG).ttlb_lvl2.getD 502 0) = 1 ∧
    TTLB_BLOCKPAGE.SH ((ttbr0_setup_translation_tables 0 0x3EC00000
        0x200000 0 0 ttbr0_MMU_CFG).ttlb_lvl2.getD 502 0) = 0b11 ∧
    TTLB_BLOCKPAGE.NS ((ttbr0_setup_translation_tables 0 0x3EC00000
        0x200000 0 0 ttbr0_MMU_CFG).ttlb_lvl2.getD 502 0) = 0 ∧
    TTLB_BLOCKPAGE.ADDR ((ttbr0_setup_translation_tables 0 0x3EC00000
        0x200000 0 0 ttbr0_MMU_CFG).ttlb_lvl2.getD 502 0) <<< 12 =
      502 * 0x200000 :=
  ttbr0_vc_region_noncacheable 0x3EC00000 0x200000 502 0 0 (by decide)
    (by decide) (by decide) (by decide) (by decide) (by decide) (by decide)

/-! ## Properties of `maintain_pages` -/

/-- Shifting right distributes over bitwise and. -/
theorem shiftRight_and_distrib (a b k : Nat) :
    (a &&& b) >>> k = (a >>> k) &&& (b >>> k) := by
  apply Nat.eq_of_testBit_eq
  intro i
  simp [Nat.testBit_and, Nat.testBit_shiftRight]

theorem field_read_or (x y off w : Nat) :
    field_read (x ||| y) off w = field_read x off w ||| field_read y off w := by
  unfold field_read
  rw [shiftRight_or_distrib, Nat.and_distrib_right]

theorem field_read_and (x m off w : Nat) :
    field_read (x &&& m) off w = (x >>> off) &&& field_read m off w := by
  unfold field_read
  rw [shiftRight_and_distrib, Nat.and_assoc]

/-- The written block entry is never zero (its low type bit is `0b01`). -/
theorem tlbValue_ne_zero (origin attributes : Nat) :
    tlbValue origin attributes ≠ 0 := by
  have h : tlbValue origin attributes % 2 = 1 := by
    unfold tlbValue
    simp [Nat.or_mod_two_eq_one]
  omega

/-- Shape of a successful `maintain_pages` call. -/
theorem maintain_pages_some_elim {cfg s' : MmuConfig} {o z a va : Nat}
    (h : maintain_pages cfg o z a = some (s', va)) :
    ∃ idx, findFreeIdx cfg.ttlb_lvl2 = some idx ∧
      s'.ttlb_lvl1 = cfg.ttlb_lvl1 ∧
      s'.ttlb_lvl2 = cfg.ttlb_lvl2.set idx (tlbValue o a) ∧
      va = vaBase idx ||| (o &&& 0x1FFFFF) := by
  unfold maintain_pages at h
  split at h
  case h_1 idx heq =>
    simp only [Option.some.injEq, Prod.mk.injEq] at h
    obtain ⟨h1, h2⟩ := h
    exact ⟨idx, heq, by rw [← h1], by rw [← h1], h2.symm⟩
  case h_2 => exact Option.noConfusion h

/-- Reachability through further successful `maintain_pages` calls. -/
def mmuSteps (s t : MmuConfig) : Prop :=
  Relation.ReflTransGen
    (fun u v => ∃ o z a va, maintain_pages u o z a = some (v, va)) s t

/-- One successful call never changes a level-2 entry that is not zero. -/
theorem maintain_pages_keeps_nonzero {u v : MmuConfig} {o z a va : Nat}
    (h : maintain_pages u o z a = some (v, va)) (j : Nat)
    (hj : u.ttlb_lvl2[j]? ≠ some 0) : v.ttlb_lvl2[j]? = u.ttlb_lvl2[j]? := by
  obtain ⟨idx, hf, _, h2, _⟩ := maintain_pages_some_elim h
  rw [h2]
  have hidx0 := (findFreeIdx_spec _ _ hf).1
  have hne : idx ≠ j := by
    intro heq
    rw [heq] at hidx0
    exact hj hidx0
  exact List.getElem?_set_ne hne

/-- Chains of successful calls never change a non-zero level-2 entry. -/
theorem mmuSteps_keeps_nonzero {s t : MmuConfig} (h : mmuSteps s t) (j : Nat)
    (hj : s.ttlb_lvl2[j]? ≠ some 0) : t.ttlb_lvl2[j]? = s.ttlb_lvl2[j]? := by
  induction h with
  | refl => rfl
  | tail _hst hstep ih =>
    obtain ⟨o, z, a, va, hm⟩ := hstep
    rw [maintain_pages_keeps_nonzero hm j (by rw [ih]; exact hj), ih]

/-! ## Claim theorems: the virtual allocator (C5, C6, C9, C10) -/

/-- C5: when every level-2 entry of the virtual table set is non-zero,
`maintain_pages` cannot find a free slot and takes the fatal path (the
source panics with "all VA addresses occupied"; modelled as `none`) instead
of returning an address or wrapping around. -/
theorem maintain_pages_exhaustion_fatal (cfg : MmuConfig)
    (origin z attributes : Nat) (h : ∀ e ∈ cfg.ttlb_lvl2, e ≠ 0) :
    maintain_pages cfg origin z attributes = none := by
  unfold maintain_pages
  rw [findFreeIdx_eq_none cfg.ttlb_lvl2 h]

/-- C5 witness: a fully occupied table (all 1024 entries non-zero). -/
theorem maintain_pages_exhaustion_fatal_witness :
    maintain_pages
      { ttlb_lvl1 := List.replicate 512 0, ttlb_lvl2 := List.replicate 1024 1 }
      0 0 0 = none :=
  maintain_pages_exhaustion_fatal _ 0 0 0
    (by intro e he; rw [List.eq_of_mem_replicate he]; decide)

/-- C6: when the current exception level is not 1, `map_memory` returns the
origin pointer unchanged, does not change the table set, and does not fail. -/
theorem map_memory_non_el1_identity (el : Nat) (cfg : MmuConfig)
    (origin z attributes : Nat) (h : el ≠ 1) :
    map_memory el cfg origin z attributes = some (cfg, origin) := by
  unfold map_memory
  rw [if_neg h]

/-- C6 witness: exception level 2. -/
theorem map_memory_non_el1_identity_witness :
    map_memory 2 ttbr1_MMU_CFG 0x12345 7 42 = some (ttbr1_MMU_CFG, 0x12345) :=
  map_memory_non_el1_identity 2 ttbr1_MMU_CFG 0x12345 7 42 (by decide)

/-- C9: `maintain_pages` — and hence `map_memory` at exception level 1 — is
insensitive to its `size` argument: two calls identical except for `size`
produce the same table mutation and the same returned virtual address. -/
theorem maintain_pages_size_insensitive (cfg : MmuConfig)
    (origin attributes z1 z2 : Nat) :
    maintain_pages cfg origin z1 attributes =
      maintain_pages cfg origin z2 attributes ∧
    map_memory 1 cfg origin z1 attributes =
      map_memory 1 cfg origin z2 attributes :=
  ⟨rfl, rfl⟩

/-- C10: a successful `maintain_pages` call writes exactly one level-2
entry — the lowest-index zero entry — with a non-zero value, leaves every
other level-2 entry and the whole level-1 array unchanged, and no chain of
later successful calls ever selects or overwrites the consumed slot. -/
theorem maintain_pages_frame (cfg s' : MmuConfig) (o z a va : Nat)
    (h : maintain_pages cfg o z a = some (s', va)) :
    ∃ idx v, v ≠ 0 ∧
      findFreeIdx cfg.ttlb_lvl2 = some idx ∧
      cfg.ttlb_lvl2[idx]? = some 0 ∧
      (∀ j, j < idx → cfg.ttlb_lvl2[j]? ≠ some 0) ∧
      s'.ttlb_lvl1 = cfg.ttlb_lvl1 ∧
      s'.ttlb_lvl2 = cfg.ttlb_lvl2.set idx v ∧
      (∀ j, j ≠ idx → s'.ttlb_lvl2[j]? = cfg.ttlb_lvl2[j]?) ∧
      (∀ t, mmuSteps s' t →
        t.ttlb_lvl2[idx]? = some v ∧ findFreeIdx t.ttlb_lvl2 ≠ some idx) := by
  obtain ⟨idx, hf, h1, h2, _⟩ := maintain_pages_some_elim h
  obtain ⟨hzero, hmin⟩ := findFreeIdx_spec _ _ hf
  have hlen : idx < cfg.ttlb_lvl2.length := findFreeIdx_lt_length _ _ hf
  have hval : s'.ttlb_lvl2[idx]? = some (tlbValue o a) := by
    rw [h2]
    exact List.getElem?_set_self hlen
  refine ⟨idx, tlbValue o a, tlbValue_ne_zero o a, hf, hzero, hmin, h1, h2,
    ?_, ?_⟩
  · intro j hj
    rw [h2]
    exact List.getElem?_set_ne (by omega)
  · intro t ht
    have hkeep : t.ttlb_lvl2[idx]? = s'.ttlb_lvl2[idx]? := by
      refine mmuSteps_keeps_nonzero ht idx ?_
      rw [hval]
      simp [tlbValue_ne_zero o a]
    have htv : t.ttlb_lvl2[idx]? = some (tlbValue o a) := by rw [hkeep, hval]
    refine ⟨htv, ?_⟩
    intro hsel
    have h0 := (findFreeIdx_spec _ _ hsel).1
    rw [htv] at h0
    exact tlbValue_ne_zero o a (Option.some.inj h0)

/-- The table state after one `maintain_pages` call on the fresh virtual
table set — a concrete state used by witnesses. -/
def afterFirstCall : MmuConfig :=
  { ttlb_lvl1 := List.replicate 512 0
    ttlb_lvl2 := (List.replicate 1024 0).set 0 (tlbValue 0x3000 0) }

/-- C10 witness: first call on the freshly initialized virtual table set. -/
theorem maintain_pages_frame_witness :
    ∃ idx v, v ≠ 0 ∧
      findFreeIdx ttbr1_MMU_CFG.ttlb_lvl2 = some idx ∧
      ttbr1_MMU_CFG.ttlb_lvl2[idx]? = some 0 ∧
      (∀ j, j < idx → ttbr1_MMU_CFG.ttlb_lvl2[j]? ≠ some 0) ∧
      afterFirstCall.ttlb_lvl1 = ttbr1_MMU_CFG.ttlb_lvl1 ∧
      afterFirstCall.ttlb_lvl2 = ttbr1_MMU_CFG.ttlb_lvl2.set idx v ∧
      (∀ j, j ≠ idx →
        afterFirstCall.ttlb_lvl2[j]? = ttbr1_MMU_CFG.ttlb_lvl2[j]?) ∧
      (∀ t, mmuSteps afterFirstCall t →
        t.ttlb_lvl2[idx]? = some v ∧ findFreeIdx t.ttlb_lvl2 ≠ some idx) :=
  maintain_pages_frame ttbr1_MMU_CFG afterFirstCall 0x3000 16 0
    (vaBase 0 ||| (0x3000 &&& 0x1FFFFF)) rfl

/-! ## Claim theorems: allocation order (C2) -/

/-- C2 counterexample: starting from the freshly initialized virtual table
set, the first call consumes slot 0 (the bottom of the region, i.e. the
virtual address furthest from the top) and the second call consumes slot 1
with a *higher* virtual address: the second call's slot is strictly closer
to the top of the virtual address range, not strictly further as claimed. -/
theorem maintain_pages_second_call_closer_to_top :
    ∃ s₁ s₂ : MmuConfig, ∃ va₁ va₂ : Nat,
      maintain_pages (ttbr1_setup_translation_tables 0 0x9000 ttbr1_MMU_CFG)
        0x1000 0x100 0 = some (s₁, va₁) ∧
      maintain_pages s₁ 0x2000 0x100 0 = some (s₂, va₂) ∧
      va₁ = 0xFFFFFFFFC0001000 ∧ va₂ = 0xFFFFFFFFC0202000 ∧
      ¬ (0xFFFFFFFFFFFFFFFF - va₂ > 0xFFFFFFFFFFFFFFFF - va₁) := by
  refine ⟨_, _, _, _, rfl, rfl, ?_, ?_, ?_⟩ <;> decide

/-- C2 (amended): consecutive successful `maintain_pages` calls consume
strictly increasing slot indices, and — as long as the consumed slots stay
within the 512 slots covered by the level-1 entry — the n-th call returns a
strictly *higher* virtual address (strictly closer to the top of the range)
than the previous one, and the two 2 MB virtual blocks never overlap. -/
theorem maintain_pages_monotonic (cfg s₁ s₂ : MmuConfig)
    (o₁ z₁ a₁ o₂ z₂ a₂ va₁ va₂ i₁ i₂ : Nat)
    (h₁ : maintain_pages cfg o₁ z₁ a₁ = some (s₁, va₁))
    (h₂ : maintain_pages s₁ o₂ z₂ a₂ = some (s₂, va₂))
    (hf₁ : findFreeIdx cfg.ttlb_lvl2 = some i₁)
    (hf₂ : findFreeIdx s₁.ttlb_lvl2 = some i₂) :
    i₁ < i₂ ∧ (i₂ < 512 →
      va₁ < va₂ ∧ va₁ / 0x200000 < va₂ / 0x200000) := by
  obtain ⟨idx₁, hfe₁, _h11, h12, hva₁⟩ := maintain_pages_some_elim h₁
  obtain ⟨idx₂, hfe₂, _h21, _h22, hva₂⟩ := maintain_pages_some_elim h₂
  have he₁ : idx₁ = i₁ := Option.some.inj (hfe₁.symm.trans hf₁)
  have he₂ : idx₂ = i₂ := Option.some.inj (hfe₂.symm.trans hf₂)
  subst he₁
  subst he₂
  obtain ⟨hz₁, hmin₁⟩ := findFreeIdx_spec _ _ hfe₁
  obtain ⟨hz₂, _hmin₂⟩ := findFreeIdx_spec _ _ hfe₂
  have hlen₁ : idx₁ < cfg.ttlb_lvl2.length := findFreeIdx_lt_length _ _ hfe₁
  have hlt : idx₁ < idx₂ := by
    rcases Nat.lt_trichotomy idx₁ idx₂ with h | h | h
    · exact h
    · exfalso
      rw [← h] at hz₂
      rw [h12, List.getElem?_set_self hlen₁] at hz₂
      exact tlbValue_ne_zero o₁ a₁ (Option.some.inj hz₂)
    · exfalso
      rw [h12, List.getElem?_set_ne (by omega)] at hz₂
      exact hmin₁ idx₂ h hz₂
  refine ⟨hlt, ?_⟩
  intro h512
  have hb₁ := vaBase_of_lt idx₁ (by omega)
  have hb₂ := vaBase_of_lt idx₂ h512
  have hm₁ := vaBase_mod_two_pow_21 idx₁
  have hm₂ := vaBase_mod_two_pow_21 idx₂
  have hmask : (0x1FFFFF : Nat) = 2 ^ 21 - 1 := by norm_num
  have ho₁ : o₁ &&& 0x1FFFFF = o₁ % 2 ^ 21 := by
    rw [hmask, Nat.and_pow_two_sub_one_eq_mod]
  have ho₂ : o₂ &&& 0x1FFFFF = o₂ % 2 ^ 21 := by
    rw [hmask, Nat.and_pow_two_sub_one_eq_mod]
  rw [hva₁, hva₂, ho₁, ho₂,
    or_eq_add_of_lt _ _ 21 (by omega) hm₁,
    or_eq_add_of_lt _ _ 21 (by omega) hm₂]
  constructor <;> omega

/-- The table state after a second `maintain_pages` call — a concrete
witness state. -/
def afterSecondCall : MmuConfig :=
  { ttlb_lvl1 := List.replicate 512 0
    ttlb_lvl2 := ((List.replicate 1024 0).set 0 (tlbValue 0x3000 0)).set 1
      (tlbValue 0x4000 0) }

/-- C2 witness: two concrete consecutive calls from the fresh state consume
slots 0 and 1. -/
theorem maintain_pages_monotonic_witness :
    (0 : Nat) < 1 ∧ ((1 : Nat) < 512 →
      vaBase 0 ||| (0x3000 &&& 0x1FFFFF) < vaBase 1 ||| (0x4000 &&& 0x1FFFFF) ∧
      (vaBase 0 ||| (0x3000 &&& 0x1FFFFF)) / 0x200000 <
        (vaBase 1 ||| (0x4000 &&& 0x1FFFFF)) / 0x200000) :=
  maintain_pages_monotonic ttbr1_MMU_CFG afterFirstCall afterSecondCall
    0x3000 16 0 0x4000 16 0 (vaBase 0 ||| (0x3000 &&& 0x1FFFFF))
    (vaBase 1 ||| (0x4000 &&& 0x1FFFFF)) 0 1 rfl rfl rfl rfl

/-! ## Claim theorems: the written block entry (C7)

The attribute argument of `map_memory` is the caller-supplied set of
attribute bits: the `TTLB_BLOCKPAGE` attribute fields occupy bits 2..11
(`MEMATTR`, `NS`, `AP`, `SH`, `AF`, `NG`) and bits 52..54 (`C`, `PXN`,
`XN`), i.e. the mask `0x70000000000FFC`. -/

theorem tlbValue_TYPE_eq (o a : Nat) (ha : a &&& 0x70000000000FFC = a) :
    TTLB_BLOCKPAGE.TYPE (tlbValue o a) = 1 := by
  unfold TTLB_BLOCKPAGE.TYPE tlbValue
  rw [← ha, field_read_or, field_read_or, field_read_or, field_read_or,
    field_read_and, field_read_and]
  have c1 : field_read (0b1 <<< 63) 0 2 = 0 := by decide
  have c2 : field_read 0x70000000000FFC 0 2 = 0 := by decide
  have c3 : field_read 0xFFFFFFFFFFE00000 0 2 = 0 := by decide
  have c4 : field_read (1 <<< 10) 0 2 = 0 := by decide
  have c5 : field_read 0b01 0 2 = 1 := by decide
  rw [c1, c2, c3, c4, c5]
  simp

theorem tlbValue_AF_eq (o a : Nat) (ha : a &&& 0x70000000000FFC = a) :
    TTLB_BLOCKPAGE.AF (tlbValue o a) = 1 := by
  unfold TTLB_BLOCKPAGE.AF tlbValue
  rw [← ha, field_read_or, field_read_or, field_read_or, field_read_or,
    field_read_and, field_read_and]
  have c1 : field_read (0b1 <<< 63) 10 1 = 0 := by decide
  have c2 : field_read 0x70000000000FFC 10 1 = 1 := by decide
  have c3 : field_read 0xFFFFFFFFFFE00000 10 1 = 0 := by decide
  have c4 : field_read (1 <<< 10) 10 1 = 1 := by decide
  have c5 : field_read 0b01 10 1 = 0 := by decide
  rw [c1, c2, c3, c4, c5]
  simp only [Nat.and_zero, Nat.zero_or, Nat.or_zero]
  have hx : (a >>> 10) &&& 1 ≤ 1 := Nat.and_le_right
  rcases Nat.le_one_iff_eq_zero_or_eq_one.mp hx with hx0 | hx0 <;> rw [hx0] <;>
    decide

/-- Bit 63 ("unmapped until now" top-bit convention) is set in the written
block entry. -/
theorem tlbValue_top_bit (o a : Nat) (ho : o < 2 ^ 48)
    (ha : a &&& 0x70000000000FFC = a) : field_read (tlbValue o a) 63 1 = 1 := by
  unfold tlbValue
  rw [← ha, field_read_or, field_read_or, field_read_or, field_read_or,
    field_read_and, field_read_and]
  have c1 : field_read (0b1 <<< 63) 63 1 = 1 := by decide
  have c2 : field_read 0x70000000000FFC 63 1 = 0 := by decide
  have c3 : field_read 0xFFFFFFFFFFE00000 63 1 = 1 := by decide
  have c4 : field_read (1 <<< 10) 63 1 = 0 := by decide
  have c5 : field_read 0b01 63 1 = 0 := by decide
  rw [c1, c2, c3, c4, c5]
  have ho63 : o >>> 63 = 0 := by
    rw [Nat.shiftRight_eq_div_pow]
    apply Nat.div_eq_of_lt
    omega
  rw [ho63]
  simp

/-- The output address field of the written block entry is the physical
origin rounded down to a 2 MB boundary. -/
theorem tlbValue_ADDR_eq (o a : Nat) (ho : o < 2 ^ 48)
    (ha : a &&& 0x70000000000FFC = a) :
    TTLB_BLOCKPAGE.ADDR (tlbValue o a) <<< 12 = o &&& 0xFFFFFFFFFFE00000 := by
  unfold TTLB_BLOCKPAGE.ADDR tlbValue
  rw [← ha, field_read_or, field_read_or, field_read_or, field_read_or,
    field_read_and, field_read_and]
  have c1 : field_read (0b1 <<< 63) 12 36 = 0 := by decide
  have c2 : field_read 0x70000000000FFC 12 36 = 0 := by decide
  have c3 : field_read 0xFFFFFFFFFFE00000 12 36 = 0xFFFFFFE00 := by decide
  have c4 : field_read (1 <<< 10) 12 36 = 0 := by decide
  have c5 : field_read 0b01 12 36 = 0 := by decide
  rw [c1, c2, c3, c4, c5]
  simp only [Nat.and_zero, Nat.zero_or, Nat.or_zero]
  rw [← and_shiftLeft_mask o 0xFFFFFFE00 12]
  have ho48 : o &&& (2 ^ 48 - 1) = o := Nat.and_pow_two_sub_one_of_lt_two_pow ho
  rw [← ho48, Nat.and_assoc, Nat.and_assoc]
  congr 1

/-- C7: a successful `maintain_pages` call writes into the chosen slot a
`Block` entry carrying `origin & !0x1F_FFFF` as its output address, with the
access flag and the top bit set, and the returned virtual address keeps the
21-bit intra-block offset of the physical origin. -/
theorem maintain_pages_block_entry (cfg s' : MmuConfig)
    (origin z attributes va : Nat) (horig : origin < 2 ^ 48)
    (hattr : attributes &&& 0x70000000000FFC = attributes)
    (h : maintain_pages cfg origin z attributes = some (s', va)) :
    ∃ idx, findFreeIdx cfg.ttlb_lvl2 = some idx ∧
      s'.ttlb_lvl2 = cfg.ttlb_lvl2.set idx (tlbValue origin attributes) ∧
      TTLB_BLOCKPAGE.TYPE (tlbValue origin attributes) =
        TTLB_BLOCKPAGE.TYPE_BLOCK ∧
      TTLB_BLOCKPAGE.AF (tlbValue origin attributes) = 1 ∧
      field_read (tlbValue origin attributes) 63 1 = 1 ∧
      TTLB_BLOCKPAGE.ADDR (tlbValue origin attributes) <<< 12 =
        origin &&& 0xFFFFFFFFFFE00000 ∧
      va % 0x200000 = origin % 0x200000 := by
  obtain ⟨idx, hf, _h1, h2, hva⟩ := maintain_pages_some_elim h
  refine ⟨idx, hf, h2, ?_, tlbValue_AF_eq origin attributes hattr,
    tlbValue_top_bit origin attributes horig hattr,
    tlbValue_ADDR_eq origin attributes horig hattr, ?_⟩
  · rw [tlbValue_TYPE_eq origin attributes hattr]
    decide
  · rw [hva]
    have hmask : (0x1FFFFF : Nat) = 2 ^ 21 - 1 := by norm_num
    rw [hmask, Nat.and_pow_two_sub_one_eq_mod,
      or_eq_add_of_lt _ _ 21 (by omega) (vaBase_mod_two_pow_21 idx)]
    have hvb := vaBase_mod_two_pow_21 idx
    omega

/-- The table state after mapping physical origin `0x123456` — a concrete
witness state. -/
def afterOriginCall : MmuConfig :=
  { ttlb_lvl1 := List.replicate 512 0
    ttlb_lvl2 := (List.replicate 1024 0).set 0 (tlbValue 0x123456 0) }

/-- C7 witness: mapping origin `0x123456` (intra-block offset `0x123456`)
with empty attribute bits on the fresh table set. -/
theorem maintain_pages_block_entry_witness :
    ∃ idx, findFreeIdx ttbr1_MMU_CFG.ttlb_lvl2 = some idx ∧
      afterOriginCall.ttlb_lvl2 =
        ttbr1_MMU_CFG.ttlb_lvl2.set idx (tlbValue 0x123456 0) ∧
      TTLB_BLOCKPAGE.TYPE (tlbValue 0x123456 0) =
        TTLB_BLOCKPAGE.TYPE_BLOCK ∧
      TTLB_BLOCKPAGE.AF (tlbValue 0x123456 0) = 1 ∧
      field_read (tlbValue 0x123456 0) 63 1 = 1 ∧
      TTLB_BLOCKPAGE.ADDR (tlbValue 0x123456 0) <<< 12 =
        0x123456 &&& 0xFFFFFFFFFFE00000 ∧
      (vaBase 0 ||| (0x123456 &&& 0x1FFFFF)) % 0x200000 = 0x123456 % 0x200000 :=
  maintain_pages_block_entry ttbr1_MMU_CFG afterOriginCall 0x123456 64 0
    (vaBase 0 ||| (0x123456 &&& 0x1FFFFF)) (by decide) (by decide) rfl

/-! ## Claim theorems: the block splitter (C4) -/

/-- The level-2 page entry written by `mmu64.rs::maintain_pages` at a page
index of the affected block outside the requested sub-range. -/
theorem mmu64_lvl2_outside (cfg : Mmu64Config)
    (addr page_from page_count page_attributes l1 l2 p : Nat)
    (hlen : cfg.ttlb_lvl2.length = 1024)
    (hone : page_from / 512 = (page_from + page_count) / 512)
    (_hb2 : page_from / 512 < 2) (hp : p < 512)
    (hout : p < page_from % 512 ∨ page_from % 512 + page_count ≤ p) :
    (mmu64_maintain_pages cfg addr page_from page_count page_attributes
        l1 l2).ttlb_lvl2.getD p 0 =
      (cfg.ttlb_lvl1.getD (page_from / 512) 0 &&& 0xFFF0000000000FFC) |||
        (p * 0x1000 + page_from / 512 * 0x200000) ||| 0b11 := by
  have hbps : page_from - page_from / 512 * 512 = page_from % 512 := by omega
  have hbpe : page_from + page_count < (page_from / 512 + 1) * 512 := by omega
  simp only [mmu64_maintain_pages]
  rw [List.getD_eq_getElem?_getD, setRange_getElem?]
  rcases hout with hl | hr
  · rw [if_neg ?_, setRange_getElem?, if_neg ?_, setRange_getElem?,
      if_pos ?_]
    · rfl
    · refine ⟨by omega, by omega, by omega⟩
    · rw [setRange_length, hlen]
      omega
    · rw [setRange_length, setRange_length, hlen]
      omega
  · rw [if_pos ?_]
    · rfl
    · rw [setRange_length, setRange_length, hlen]
      refine ⟨by omega, by omega, by omega⟩

/-- C4: the block splitter is attribute-preserving outside the requested
sub-range: when `page_from`/`page_count` stay within one 2 MB block whose
level-1 entry currently holds a `Block` descriptor with the identity output
address of its block index, every page entry of the affected block outside
`[page_from % 512, page_from % 512 + page_count)` decodes to a `Page` entry
with exactly the original block's memory profile, shareability and
access-flag bits, and physical address `block base + page index * 4 KB`. -/
theorem mmu64_maintain_pages_preserves_outside (cfg : Mmu64Config)
    (addr page_from page_count page_attributes l1 l2 p orig : Nat)
    (hlen : cfg.ttlb_lvl2.length = 1024)
    (horig : cfg.ttlb_lvl1.getD (page_from / 512) 0 = orig)
    (_hblock : TTLB_BLOCKPAGE.TYPE orig = TTLB_BLOCKPAGE.TYPE_BLOCK)
    (haddr : TTLB_BLOCKPAGE.ADDR orig <<< 12 = page_from / 512 * 0x200000)
    (hone : page_from / 512 = (page_from + page_count) / 512)
    (hb2 : page_from / 512 < 2) (hp : p < 512)
    (hout : p < page_from % 512 ∨ page_from % 512 + page_count ≤ p) :
    TTLB_BLOCKPAGE.TYPE ((mmu64_maintain_pages cfg addr page_from page_count
        page_attributes l1 l2).ttlb_lvl2.getD p 0) =
      TTLB_BLOCKPAGE.TYPE_PAGE ∧
    TTLB_BLOCKPAGE.MEMATTR ((mmu64_maintain_pages cfg addr page_from
        page_count page_attributes l1 l2).ttlb_lvl2.getD p 0) =
      TTLB_BLOCKPAGE.MEMATTR orig ∧
    TTLB_BLOCKPAGE.SH ((mmu64_maintain_pages cfg addr page_from page_count
        page_attributes l1 l2).ttlb_lvl2.getD p 0) = TTLB_BLOCKPAGE.SH orig ∧
    TTLB_BLOCKPAGE.AF ((mmu64_maintain_pages cfg addr page_from page_count
        page_attributes l1 l2).ttlb_lvl2.getD p 0) = TTLB_BLOCKPAGE.AF orig ∧
    TTLB_BLOCKPAGE.ADDR ((mmu64_maintain_pages cfg addr page_from page_count
        page_attributes l1 l2).ttlb_lvl2.getD p 0) <<< 12 =
      TTLB_BLOCKPAGE.ADDR orig <<< 12 + p * 0x1000 := by
  rw [mmu64_lvl2_outside cfg addr page_from page_count page_attributes l1 l2
    p hlen hone hb2 hp hout, horig, haddr]
  rw [show (0xFFF0000000000FFC : Nat) = 0xFFF0000000000000 ||| 0xFFC from
    by decide]
  rw [show orig &&& (0xFFF0000000000000 ||| 0xFFC) =
      (orig &&& 0xFFF0000000000000) ||| (orig &&& 0xFFC) from
    Nat.and_or_distrib_left orig 0xFFF0000000000000 0xFFC]
  rw [show (0xFFF0000000000000 : Nat) = 0xFFF <<< 52 from by decide,
    and_shiftLeft_mask orig 0xFFF 52,
    show (0xFFC : Nat) = 0x3FF <<< 2 from by decide,
    and_shiftLeft_mask orig 0x3FF 2]
  have hqh : orig >>> 52 &&& 0xFFF ≤ 0xFFF := Nat.and_le_right
  have hql : orig >>> 2 &&& 0x3FF ≤ 0x3FF := Nat.and_le_right
  rw [Nat.shiftLeft_eq (orig >>> 52 &&& 0xFFF), Nat.shiftLeft_eq (orig >>> 2 &&& 0x3FF)]
  rw [Nat.or_assoc ((orig >>> 52 &&& 0xFFF) * 2 ^ 52)]
  rw [Nat.or_comm ((orig >>> 2 &&& 0x3FF) * 2 ^ 2)]
  rw [or_eq_add_of_lt ((orig >>> 2 &&& 0x3FF) * 2 ^ 2)
    (p * 0x1000 + page_from / 512 * 0x200000) 12 (by omega) (by omega)]
  rw [or_eq_add_of_lt
    (p * 0x1000 + page_from / 512 * 0x200000 + (orig >>> 2 &&& 0x3FF) * 2 ^ 2)
    ((orig >>> 52 &&& 0xFFF) * 2 ^ 52) 52 (by omega) (by omega)]
  rw [or_eq_add_of_lt 0b11
    ((orig >>> 52 &&& 0xFFF) * 2 ^ 52 +
      (p * 0x1000 + page_from / 512 * 0x200000 +
        (orig >>> 2 &&& 0x3FF) * 2 ^ 2)) 2 (by omega) (by omega)]
  have hqh2 : orig >>> 52 &&& 0xFFF = orig / 2 ^ 52 % 2 ^ 12 := by
    rw [show (0xFFF : Nat) = 2 ^ 12 - 1 from by norm_num,
      Nat.and_pow_two_sub_one_eq_mod, Nat.shiftRight_eq_div_pow]
  have hql2 : orig >>> 2 &&& 0x3FF = orig / 2 ^ 2 % 2 ^ 10 := by
    rw [show (0x3FF : Nat) = 2 ^ 10 - 1 from by norm_num,
      Nat.and_pow_two_sub_one_eq_mod, Nat.shiftRight_eq_div_pow]
  rw [hqh2, hql2, TTLB_BLOCKPAGE.TYPE_eq, TTLB_BLOCKPAGE.MEMATTR_eq,
    TTLB_BLOCKPAGE.MEMATTR_eq, TTLB_BLOCKPAGE.SH_eq, TTLB_BLOCKPAGE.SH_eq,
    TTLB_BLOCKPAGE.AF_eq, TTLB_BLOCKPAGE.AF_eq, TTLB_BLOCKPAGE.ADDR_eq,
    Nat.shiftLeft_eq]
  simp only [TTLB_BLOCKPAGE.TYPE_PAGE]
  refine ⟨?_, ?_, ?_, ?_, ?_⟩ <;> omega

/-- An `mmu64` table state whose block 0 holds the identity normal-memory
block entry `0x711` written by `setup_page_tables` — a concrete witness
state for the splitter. -/
def splitWitnessConfig : Mmu64Config :=
  { ttlb_lvl0 := List.replicate 512 0
    ttlb_lvl2 := List.replicate 1024 0
    ttlb_lvl1 := (List.replicate 513 0).set 0 0x711 }

/-- C4 witness: splitting pages `2..3` of block 0; page 0 (outside the
requested range) keeps the original block attributes of entry `0x711`. -/
theorem mmu64_preserves_outside_witness :
    TTLB_BLOCKPAGE.TYPE ((mmu64_maintain_pages splitWitnessConfig 0 2 1 8
        0x1000 0x2000).ttlb_lvl2.getD 0 0) = TTLB_BLOCKPAGE.TYPE_PAGE ∧
    TTLB_BLOCKPAGE.MEMATTR ((mmu64_maintain_pages splitWitnessConfig 0 2 1 8
        0x1000 0x2000).ttlb_lvl2.getD 0 0) = TTLB_BLOCKPAGE.MEMATTR 0x711 ∧
    TTLB_BLOCKPAGE.SH ((mmu64_maintain_pages splitWitnessConfig 0 2 1 8
        0x1000 0x2000).ttlb_lvl2.getD 0 0) = TTLB_BLOCKPAGE.SH 0x711 ∧
    TTLB_BLOCKPAGE.AF ((mmu64_maintain_pages splitWitnessConfig 0 2 1 8
        0x1000 0x2000).ttlb_lvl2.getD 0 0) = TTLB_BLOCKPAGE.AF 0x711 ∧
    TTLB_BLOCKPAGE.ADDR ((mmu64_maintain_pages splitWitnessConfig 0 2 1 8
        0x1000 0x2000).ttlb_lvl2.getD 0 0) <<< 12 =
      TTLB_BLOCKPAGE.ADDR 0x711 <<< 12 + 0 * 0x1000 :=
  mmu64_maintain_pages_preserves_outside splitWitnessConfig 0 2 1 8
    0x1000 0x2000 0 0x711
    (by rw [show splitWitnessConfig.ttlb_lvl2 = List.replicate 1024 0 from rfl,
      List.length_replicate]) (by decide)
    (by decide) (by decide) (by decide) (by decide) (by decide) (by decide)

/-! ## Claim theorems: the entry codec round trip (C8) -/

/-- Closed form of the block/page entry encoder as a sum of shifted fields. -/
theorem TTLB_BLOCKPAGE.encode_eq (t m ns ap sh af ng addrv c pxn xn : Nat)
    (ht : t < 4) (hm : m < 8) (hns : ns < 2) (hap : ap < 4) (hsh : sh < 4)
    (haf : af < 2) (hng : ng < 2) (haddr : addrv < 2 ^ 36) (hc : c < 2)
    (hpxn : pxn < 2) :
    TTLB_BLOCKPAGE.encode t m ns ap sh af ng addrv c pxn xn =
      t + m * 2 ^ 2 + ns * 2 ^ 5 + ap * 2 ^ 6 + sh * 2 ^ 8 + af * 2 ^ 10 +
        ng * 2 ^ 11 + addrv * 2 ^ 12 + c * 2 ^ 52 + pxn * 2 ^ 53 +
        xn * 2 ^ 54 := by
  unfold TTLB_BLOCKPAGE.encode
  rw [or_shift_add t m 2 (by omega)]
  rw [or_shift_add _ ns 5 (by omega)]
  rw [or_shift_add _ ap 6 (by omega)]
  rw [or_shift_add _ sh 8 (by omega)]
  rw [or_shift_add _ af 10 (by omega)]
  rw [or_shift_add _ ng 11 (by omega)]
  rw [or_shift_add _ addrv 12 (by omega)]
  rw [or_shift_add _ c 52 (by omega)]
  rw [or_shift_add _ pxn 53 (by omega)]
  rw [or_shift_add _ xn 54 (by omega)]

/-- Closed form of the table entry encoder as a sum of shifted fields. -/
theorem table_encode_eq (t addrv pxn xn ap ns : Nat)
    (ht : t < 4) (haddr : addrv < 2 ^ 36) (hpxn : pxn < 2) (hxn : xn < 2)
    (hap : ap < 4) :
    TTLB_TABLE.encode t addrv pxn xn ap ns =
      t + addrv * 2 ^ 12 + pxn * 2 ^ 59 + xn * 2 ^ 60 + ap * 2 ^ 61 +
        ns * 2 ^ 63 := by
  unfold TTLB_TABLE.encode
  rw [or_shift_add t addrv 12 (by omega)]
  rw [or_shift_add _ pxn 59 (by omega)]
  rw [or_shift_add _ xn 60 (by omega)]
  rw [or_shift_add _ ap 61 (by omega)]
  rw [or_shift_add _ ns 63 (by omega)]

/-- C8: the entry codec round-trips — decoding the 64-bit word produced by
encoding any representable field combination of a block/page entry or a
table entry yields exactly the original field values (encode and decode are
pure functions of their arguments). -/
theorem tlb_entry_codec_roundtrip (t m ns ap sh af ng addrv c pxn xn : Nat)
    (t2 addr2 pxn2 xn2 ap2 ns2 : Nat)
    (ht : t < 4) (hm : m < 8) (hns : ns < 2) (hap : ap < 4) (hsh : sh < 4)
    (haf : af < 2) (hng : ng < 2) (haddr : addrv < 2 ^ 36) (hc : c < 2)
    (hpxn : pxn < 2) (hxn : xn < 2)
    (ht2 : t2 < 4) (haddr2 : addr2 < 2 ^ 36) (hpxn2 : pxn2 < 2)
    (hxn2 : xn2 < 2) (hap2 : ap2 < 4) (hns2 : ns2 < 2) :
    (TTLB_BLOCKPAGE.TYPE
        (TTLB_BLOCKPAGE.encode t m ns ap sh af ng addrv c pxn xn) = t ∧
      TTLB_BLOCKPAGE.MEMATTR
        (TTLB_BLOCKPAGE.encode t m ns ap sh af ng addrv c pxn xn) = m ∧
      TTLB_BLOCKPAGE.NS
        (TTLB_BLOCKPAGE.encode t m ns ap sh af ng addrv c pxn xn) = ns ∧
      TTLB_BLOCKPAGE.AP
        (TTLB_BLOCKPAGE.encode t m ns ap sh af ng addrv c pxn xn) = ap ∧
      TTLB_BLOCKPAGE.SH
        (TTLB_BLOCKPAGE.encode t m ns ap sh af ng addrv c pxn xn) = sh ∧
      TTLB_BLOCKPAGE.AF
        (TTLB_BLOCKPAGE.encode t m ns ap sh af ng addrv c pxn xn) = af ∧
      TTLB_BLOCKPAGE.NG
        (TTLB_BLOCKPAGE.encode t m ns ap sh af ng addrv c pxn xn) = ng ∧
      TTLB_BLOCKPAGE.ADDR
        (TTLB_BLOCKPAGE.encode t m ns ap sh af ng addrv c pxn xn) = addrv ∧
      TTLB_BLOCKPAGE.C
        (TTLB_BLOCKPAGE.encode t m ns ap sh af ng addrv c pxn xn) = c ∧
      TTLB_BLOCKPAGE.PXN
        (TTLB_BLOCKPAGE.encode t m ns ap sh af ng addrv c pxn xn) = pxn ∧
      TTLB_BLOCKPAGE.XN
        (TTLB_BLOCKPAGE.encode t m ns ap sh af ng addrv c pxn xn) = xn) ∧
    (TTLB_TABLE.TYPE (TTLB_TABLE.encode t2 addr2 pxn2 xn2 ap2 ns2) = t2 ∧
      TTLB_TABLE.ADDR (TTLB_TABLE.encode t2 addr2 pxn2 xn2 ap2 ns2) = addr2 ∧
      TTLB_TABLE.PXN (TTLB_TABLE.encode t2 addr2 pxn2 xn2 ap2 ns2) = pxn2 ∧
      TTLB_TABLE.XN (TTLB_TABLE.encode t2 addr2 pxn2 xn2 ap2 ns2) = xn2 ∧
      TTLB_TABLE.AP (TTLB_TABLE.encode t2 addr2 pxn2 xn2 ap2 ns2) = ap2 ∧
      TTLB_TABLE.NS (TTLB_TABLE.encode t2 addr2 pxn2 xn2 ap2 ns2) = ns2) := by
  constructor
  · rw [TTLB_BLOCKPAGE.encode_eq t m ns ap sh af ng addrv c pxn xn
      ht hm hns hap hsh haf hng haddr hc hpxn]
    rw [TTLB_BLOCKPAGE.TYPE_eq, TTLB_BLOCKPAGE.MEMATTR_eq,
      TTLB_BLOCKPAGE.NS_eq, TTLB_BLOCKPAGE.AP_eq, TTLB_BLOCKPAGE.SH_eq,
      TTLB_BLOCKPAGE.AF_eq, TTLB_BLOCKPAGE.NG_eq, TTLB_BLOCKPAGE.ADDR_eq,
      TTLB_BLOCKPAGE.C_eq, TTLB_BLOCKPAGE.PXN_eq, TTLB_BLOCKPAGE.XN_eq]
    refine ⟨?_, ?_, ?_, ?_, ?_, ?_, ?_, ?_, ?_, ?_, ?_⟩ <;> omega
  · rw [table_encode_eq t2 addr2 pxn2 xn2 ap2 ns2 ht2 haddr2 hpxn2
      hxn2 hap2]
    rw [table_TYPE_eq, table_ADDR_eq, table_PXN_eq,
      table_XN_eq, table_AP_eq, table_NS_eq]
    refine ⟨?_, ?_, ?_, ?_, ?_, ?_⟩ <;> omega

/-- C8 witness: a concrete field combination for each entry variant. -/
theorem tlb_entry_codec_roundtrip_witness :
    (TTLB_BLOCKPAGE.TYPE
        (TTLB_BLOCKPAGE.encode 1 4 1 2 3 1 0 0x12345 1 0 1) = 1 ∧
      TTLB_BLOCKPAGE.MEMATTR
        (TTLB_BLOCKPAGE.encode 1 4 1 2 3 1 0 0x12345 1 0 1) = 4 ∧
      TTLB_BLOCKPAGE.NS
        (TTLB_BLOCKPAGE.encode 1 4 1 2 3 1 0 0x12345 1 0 1) = 1 ∧
      TTLB_BLOCKPAGE.AP
        (TTLB_BLOCKPAGE.encode 1 4 1 2 3 1 0 0x12345 1 0 1) = 2 ∧
      TTLB_BLOCKPAGE.SH
        (TTLB_BLOCKPAGE.encode 1 4 1 2 3 1 0 0x12345 1 0 1) = 3 ∧
      TTLB_BLOCKPAGE.AF
        (TTLB_BLOCKPAGE.encode 1 4 1 2 3 1 0 0x12345 1 0 1) = 1 ∧
      TTLB_BLOCKPAGE.NG
        (TTLB_BLOCKPAGE.encode 1 4 1 2 3 1 0 0x12345 1 0 1) = 0 ∧
      TTLB_BLOCKPAGE.ADDR
        (TTLB_BLOCKPAGE.encode 1 4 1 2 3 1 0 0x12345 1 0 1) = 0x12345 ∧
      TTLB_BLOCKPAGE.C
        (TTLB_BLOCKPAGE.encode 1 4 1 2 3 1 0 0x12345 1 0 1) = 1 ∧
      TTLB_BLOCKPAGE.PXN
        (TTLB_BLOCKPAGE.encode 1 4 1 2 3 1 0 0x12345 1 0 1) = 0 ∧
      TTLB_BLOCKPAGE.XN
        (TTLB_BLOCKPAGE.encode 1 4 1 2 3 1 0 0x12345 1 0 1) = 1) ∧
    (TTLB_TABLE.TYPE (TTLB_TABLE.encode 3 0xABC 1 0 1 1) = 3 ∧
      TTLB_TABLE.ADDR (TTLB_TABLE.encode 3 0xABC 1 0 1 1) = 0xABC ∧
      TTLB_TABLE.PXN (TTLB_TABLE.encode 3 0xABC 1 0 1 1) = 1 ∧
      TTLB_TABLE.XN (TTLB_TABLE.encode 3 0xABC 1 0 1 1) = 0 ∧
      TTLB_TABLE.AP (TTLB_TABLE.encode 3 0xABC 1 0 1 1) = 1 ∧
      TTLB_TABLE.NS (TTLB_TABLE.encode 3 0xABC 1 0 1 1) = 1) :=
  tlb_entry_codec_roundtrip 1 4 1 2 3 1 0 0x12345 1 0 1 3 0xABC 1 0 1 1
    (by decide) (by decide) (by decide) (by decide) (by decide) (by decide)
    (by decide) (by decide) (by decide) (by decide) (by decide) (by decide)
    (by decide) (by decide) (by decide) (by decide) (by decide)

end RuspiroMMU
